import Mathlib

/-
  Verification development for the NeuralFoundry retrieval-and-context-assembly
  pipeline.  The repository ships a React frontend (embedded below from the
  files under frontend/src) and documents a FastAPI backend; the backend
  modules themselves (retrieval engine, chunking engine, processing state
  machine, context budget allocator) are not part of the source tree checked
  here, so those operations are modelled from the specification text and
  marked as such in their doc comments.
-/

namespace NeuralFoundry

/-- Modelled from the spec: embeddings are fixed-dimension numeric vectors
(§2, §4.2); the numeric values are modelled as rationals. -/
abbrev Embedding := List Rat

/-- Modelled from the spec: similarity score is cosine similarity over
normalized vectors (§4.4), i.e. the dot product of the two vectors. -/
def dot : Embedding → Embedding → Rat
  | [], _ => 0
  | _, [] => 0
  | a :: as, b :: bs => a * b + dot as bs

/-- Retrieval candidate source, per the fixed layout of §4.4 step 6. -/
inductive Source where
  | recent
  | kb
  | attachment
  | history
deriving DecidableEq

/-- A retrieval candidate: its text, its similarity score, its deterministic
tie-breaker (chunk_index or created_at) and its source. -/
structure Candidate where
  text : String
  score : Rat
  tie : Nat
  source : Source
deriving DecidableEq

/-- Modelled from the spec: candidate ordering inside one non-recency source —
similarity score descending, ties broken by earlier chunk_index/created_at
(§4.4 step 6). -/
def candBefore (a b : Candidate) : Bool :=
  decide (b.score < a.score) || (decide (a.score = b.score) && decide (a.tie < b.tie))

/-- Insertion step of the stable, deterministic sort of §4.4 step 6. -/
def insertCand (c : Candidate) : List Candidate → List Candidate
  | [] => [c]
  | d :: rest => if candBefore c d then c :: d :: rest else d :: insertCand c rest

/-- Modelled from the spec: stable sort of candidates by score descending,
ties by earlier index (§4.4 step 6). -/
def sortByScore (l : List Candidate) : List Candidate :=
  l.foldr insertCand []

/-- Total size of a candidate list under a configurable per-item size
function (§4.5). -/
def totalUnits (size : Candidate → Nat) (l : List Candidate) : Nat :=
  (l.map size).sum

/-- Modelled from the spec: the walk of the ContextBudgetAllocator (§4.5) —
accumulate units along the ordered list and stop, dropping all subsequent
candidates, once the budget would be exceeded.  The accumulator is the number
of units already emitted. -/
def allocGo (size : Candidate → Nat) (budget : Nat) : Nat → List Candidate → List Candidate
  | _, [] => []
  | acc, c :: rest =>
    if acc + size c ≤ budget then c :: allocGo size budget (acc + size c) rest
    else []

/-- Modelled from the spec: the ContextBudgetAllocator (§4.5), absent from the
checked source tree.  It turns the ordered candidate list into the final
bounded context, never truncating a single candidate's text mid-way. -/
def allocate (size : Candidate → Nat) (budget : Nat) (cands : List Candidate) : List Candidate :=
  allocGo size budget 0 cands

/-- Chunking-engine error taxonomy (§4.1, §7). -/
inductive ChunkError where
  | emptyDocument
  | invalidConfig
deriving DecidableEq

/-- Modelled from the spec: the plain-text sliding window of the
ChunkingEngine (§4.1) — chunk i starts at i*(chunk_size-overlap) and has
length chunk_size; windowing stops once a window reaches the end of the text,
so that the chunk count matches ceil((len-overlap)/(chunk_size-overlap))
exactly (§8 Scenario A).  The first argument is fuel bounding the recursion by
the text length. -/
def chunksAux (text : List Char) (cs ov : Nat) : Nat → Nat → List (List Char)
  | _, 0 => []
  | s, fuel + 1 =>
    let c := (text.drop s).take cs
    if text.length ≤ s + cs then [c]
    else c :: chunksAux text cs ov (s + (cs - ov)) (fuel)

/-- Modelled from the spec: the ChunkingEngine entry point for plain text
(§4.1), absent from the checked source tree.  Empty text fails with
EmptyDocumentError and overlap ≥ chunk_size fails with InvalidConfigError. -/
def chunkText (text : List Char) (cs ov : Nat) : Except ChunkError (List (List Char)) :=
  if cs ≤ ov then .error .invalidConfig
  else if text.isEmpty then .error .emptyDocument
  else .ok (chunksAux text cs ov 0 (text.length + 1))

/-- The 5,000-character plain-text document of §8 Scenario A. -/
def scenarioAText : List Char := List.replicate 5000 'a'

/-- Pure arithmetic mirror of `chunksAux`: the number of windows it emits,
as a function of the text length alone. -/
def chunkCount (len cs ov : Nat) : Nat → Nat → Nat
  | _, 0 => 0
  | s, fuel + 1 =>
    if len ≤ s + cs then 1
    else 1 + chunkCount len cs ov (s + (cs - ov)) fuel

lemma chunksAux_length_eq (text : List Char) (cs ov : Nat) (fuel : Nat) :
    ∀ s, (chunksAux text cs ov s fuel).length = chunkCount text.length cs ov s fuel := by
  induction fuel with
  | zero => intro s; rfl
  | succ n ih =>
    intro s
    unfold chunksAux chunkCount
    split
    · rfl
    · simp [ih, Nat.add_comm]

lemma chunksAux_getD (text : List Char) (cs ov : Nat) (fuel : Nat) :
    ∀ s i, i < (chunksAux text cs ov s fuel).length →
      (chunksAux text cs ov s fuel).getD i [] = (text.drop (s + i * (cs - ov))).take cs := by
  induction fuel with
  | zero => intro s i h; simp [chunksAux] at h
  | succ n ih =>
    intro s i h
    unfold chunksAux at h ⊢
    simp only [] at h ⊢
    by_cases hc : text.length ≤ s + cs
    · simp only [hc, if_true] at h ⊢
      simp at h
      subst h
      simp
    · simp only [hc, if_false] at h ⊢
      cases i with
      | zero => simp
      | succ j =>
        simp only [List.getD_cons_succ]
        rw [ih]
        · ring_nf
        · simpa using h

lemma scenarioAText_length : scenarioAText.length = 5000 := by
  rw [scenarioAText, List.length_replicate]

lemma scenarioA_chunkText :
    chunkText scenarioAText 500 50 = .ok (chunksAux scenarioAText 500 50 0 5001) := by
  rw [chunkText, if_neg (by norm_num), if_neg (by simp [scenarioAText]), scenarioAText_length]

lemma scenarioA_chunks_length : (chunksAux scenarioAText 500 50 0 5001).length = 11 := by
  rw [chunksAux_length_eq, scenarioAText_length]
  decide

lemma allocGo_isPrefixOf (size : Candidate → Nat) (budget : Nat) :
    ∀ (l : List Candidate) (acc : Nat), allocGo size budget acc l <+: l := by
  intro l
  induction l with
  | nil => intro acc; simp [allocGo]
  | cons c rest ih =>
    intro acc
    unfold allocGo
    split
    · obtain ⟨t, ht⟩ := ih (acc + size c)
      exact ⟨t, by simp [ht]⟩
    · exact ⟨c :: rest, rfl⟩

lemma allocGo_total (size : Candidate → Nat) (budget : Nat) :
    ∀ (l : List Candidate) (acc : Nat), acc ≤ budget →
      acc + totalUnits size (allocGo size budget acc l) ≤ budget := by
  intro l
  induction l with
  | nil => intro acc h; simpa [allocGo, totalUnits] using h
  | cons c rest ih =>
    intro acc h
    unfold allocGo
    split
    · rename_i hle
      have hrec := ih (acc + size c) hle
      simp only [totalUnits, List.map_cons, List.sum_cons] at hrec ⊢
      omega
    · simpa [totalUnits] using h

/-- Retrieval configuration, injected per call (§4.4, §5, §9). -/
structure RetrievalConfig where
  recent_k : Nat
  history_k : Nat
  history_threshold : Rat
  kb_k : Nat
  kb_k_total : Nat
  kb_threshold : Rat
  attachment_k : Nat
  attachment_threshold : Rat
  max_context_units : Nat

/-- A stored chat message (§3): ordered by created_at within a chat. -/
structure ChatMessage where
  id : Nat
  content : String
  embedding : Embedding
  created_at : Nat

/-- A stored chunk (KBChunk or ChatAttachmentChunk, §3). -/
structure Chunk where
  id : Nat
  chunk_index : Nat
  text : String
  embedding : Embedding

/-- Candidate for a recent message: pinned, never re-ordered by score, so it
carries no similarity score (§4.4 steps 2 and 6). -/
def msgCandidate (m : ChatMessage) : Candidate :=
  { text := m.content, score := 0, tie := m.created_at, source := .recent }

/-- Candidate for an older message scored against the query (§4.4 step 3). -/
def histCandidate (q : Embedding) (m : ChatMessage) : Candidate :=
  { text := m.content, score := dot q m.embedding, tie := m.created_at, source := .history }

/-- Candidate for a KB or attachment chunk scored against the query
(§4.4 steps 4 and 5). -/
def chunkCandidate (src : Source) (q : Embedding) (c : Chunk) : Candidate :=
  { text := c.text, score := dot q c.embedding, tie := c.chunk_index, source := src }

/-- The result of `retrieve`: the four per-source candidate lists and the
fused ordered candidate list handed to the ContextBudgetAllocator. -/
structure RankedContext where
  recent : List Candidate
  kbMatches : List Candidate
  attMatches : List Candidate
  histMatches : List Candidate
  candidates : List Candidate

/-- Modelled from the spec: the RetrievalFusionEngine's `retrieve`
(§4.4), absent from the checked source tree.  Steps: recency component =
last recent_k messages in chronological order, always included; semantic
history over the older messages (skipped when recency covers the whole chat),
per-KB search re-trimmed globally to kb_k_total, attachment search; fused in
the fixed layout order recent ++ KB ++ attachment ++ history. -/
def retrieve (cfg : RetrievalConfig) (msgs : List ChatMessage)
    (kbChunks : List (List Chunk)) (attChunks : List Chunk) (q : Embedding) :
    RankedContext :=
  let recentMsgs := msgs.drop (msgs.length - cfg.recent_k)
  let olderMsgs := msgs.take (msgs.length - cfg.recent_k)
  let hist :=
    if msgs.length ≤ cfg.recent_k then []
    else
      (sortByScore ((olderMsgs.map (histCandidate q)).filter
        (fun c => decide (cfg.history_threshold ≤ c.score)))).take cfg.history_k
  let perKB := kbChunks.map (fun l =>
    (sortByScore ((l.map (chunkCandidate .kb q)).filter
      (fun c => decide (cfg.kb_threshold ≤ c.score)))).take cfg.kb_k)
  let kbAll := (sortByScore perKB.flatten).take cfg.kb_k_total
  let att := (sortByScore ((attChunks.map (chunkCandidate .attachment q)).filter
      (fun c => decide (cfg.attachment_threshold ≤ c.score)))).take cfg.attachment_k
  let recentC := recentMsgs.map msgCandidate
  { recent := recentC
    kbMatches := kbAll
    attMatches := att
    histMatches := hist
    candidates := recentC ++ kbAll ++ att ++ hist }

/-- Per-source candidate counts returned to the caller for observability
(§6 Send-message). -/
structure RetrievalMetadata where
  recentCount : Nat
  olderCount : Nat
  kbCount : Nat
  attachmentCount : Nat
deriving DecidableEq

/-- The `{reply, metadata}` record returned by send-message (§6). -/
structure SendResult where
  reply : String
  metadata : RetrievalMetadata

/-- Size function used for the context budget: length of the candidate
text (§4.5: a configurable size function per item; character units). -/
def candSize (c : Candidate) : Nat := c.text.length

/-- Modelled from the spec: the backend send-message operation (§6), absent
from the checked source tree.  It accepts the chat's state and the new user
content, invokes `retrieve`, hands the ordered candidates to the
ContextBudgetAllocator, calls the LLM, and returns `{reply, metadata}` with
the per-source candidate counts. -/
def sendMessage (llm : String → List Candidate → String)
    (embedQuery : String → Embedding) (cfg : RetrievalConfig)
    (msgs : List ChatMessage) (kbChunks : List (List Chunk))
    (attChunks : List Chunk) (content : String) : SendResult :=
  let r := retrieve cfg msgs kbChunks attChunks (embedQuery content)
  let ctx := allocate candSize cfg.max_context_units r.candidates
  { reply := llm content ctx
    metadata :=
      { recentCount := r.recent.length
        olderCount := r.histMatches.length
        kbCount := r.kbMatches.length
        attachmentCount := r.attMatches.length } }

/-- Processing lifecycle states (§4.3). -/
inductive DocStatus where
  | queued
  | chunking
  | embedding
  | ready
  | failed
deriving DecidableEq

/-- Modelled from the spec: the transition relation of the
ProcessingStateMachine (§4.3), absent from the checked source tree —
queued → chunking → embedding → ready, with failed reachable from chunking
or embedding; no transition skips a state. -/
inductive DocStep : DocStatus → DocStatus → Prop where
  | start : DocStep .queued .chunking
  | chunked : DocStep .chunking .embedding
  | embedded : DocStep .embedding .ready
  | chunkFailed : DocStep .chunking .failed
  | embedFailed : DocStep .embedding .failed

/-- Position of a status along the happy path queued-chunking-embedding-ready;
`failed` sits outside the path. -/
def statusRank : DocStatus → Nat
  | .queued => 0
  | .chunking => 1
  | .embedding => 2
  | .ready => 3
  | .failed => 4

/-- Embedded from frontend/src/components/chat/AttachmentPreview.jsx
(lines 41-61): the status badge the UI renders for an attachment's
processing_status — the recognised status values are the strings
"processing", "completed" and "failed", and the value rendered as
"Ready" is "completed". -/
def attachmentStatusBadge (s : String) : Option String :=
  if s = "processing" then some "Processing..."
  else if s = "completed" then some "✓ Ready"
  else if s = "failed" then some "✗ Failed"
  else none

/-- A KBDocument row, reduced to the fields the duplicate-name rule uses
(§3, §7). -/
structure KBDocumentRow where
  id : Nat
  filename : String
deriving DecidableEq

/-- Upload error taxonomy slice relevant here (§7). -/
inductive UploadError where
  | duplicateName
deriving DecidableEq

/-- Modelled from the spec: the backend document upload into a KB (§3, §7,
§8 Scenario D), absent from the checked source tree.  Result value and the
KB's document table after the call: a duplicate filename yields
DuplicateNameError and leaves the table unchanged (no new row); otherwise the
new row is appended in `queued` status. -/
def uploadDocument (docs : List KBDocumentRow) (newId : Nat) (fn : String) :
    Except UploadError KBDocumentRow × List KBDocumentRow :=
  if docs.any (fun d => decide (d.filename = fn)) then
    (.error .duplicateName, docs)
  else
    (.ok ⟨newId, fn⟩, docs ++ [⟨newId, fn⟩])

/-- Modelled from the spec: DuplicateNameError is surfaced distinctly as a
conflict, i.e. HTTP 409 (§7; the backend route is absent from the checked
source tree). -/
def uploadErrorHTTPStatus : UploadError → Nat
  | .duplicateName => 409

/-- Embedded from frontend/src/components/kb/KBManagementModal.jsx
(handleUploadDocument, lines 41-61): the toast chosen for a failed upload —
HTTP status 409 is reported as a filename conflict. -/
def uploadErrorToast (status : Nat) : String :=
  if status = 409 then "A file with this name already exists"
  else "Failed to upload document"

/-- A KBDocument row reduced to its identity and owning KB (§3). -/
structure KBDocRef where
  id : Nat
  kb_id : Nat
deriving DecidableEq

/-- A KBChunk row reduced to its identity and owning document (§3). -/
structure KBChunkRow where
  id : Nat
  document_id : Nat
deriving DecidableEq

/-- The relational state the KB-deletion cascade touches (§3). -/
structure KBStore where
  kbs : List Nat
  docs : List KBDocRef
  chunks : List KBChunkRow
  chatKBs : List (Nat × Nat)
deriving DecidableEq

/-- Modelled from the spec: deleting a KB cascades to all its documents and
chunks and removes it from every chat's attached-KB set (§3, §8 Cascade; the
backend route is absent from the checked source tree). -/
def deleteKB (db : KBStore) (k : Nat) : KBStore :=
  let deadDocs := (db.docs.filter (fun d => decide (d.kb_id = k))).map (fun d => d.id)
  { kbs := db.kbs.filter (fun i => decide (i ≠ k))
    docs := db.docs.filter (fun d => decide (d.kb_id ≠ k))
    chunks := db.chunks.filter (fun c => decide (c.document_id ∉ deadDocs))
    chatKBs := db.chatKBs.filter (fun p => decide (p.2 ≠ k)) }

/-- A knowledge base as the frontend lists it. -/
structure KBView where
  kb_id : Nat
deriving DecidableEq

/-- Embedded from frontend/src/pages/ChatPage.jsx (handleKBDeleted, lines
178-181): on KB deletion the UI removes the KB from both the KB list and the
current chat's attached set. -/
def handleKBDeleted (kbs attached : List KBView) (k : Nat) :
    List KBView × List KBView :=
  (kbs.filter (fun kb => decide (kb.kb_id ≠ k)),
   attached.filter (fun kb => decide (kb.kb_id ≠ k)))

/-- Modelled from the spec: attaching a KB to a chat toggles membership in
the ChatSessionKB set — a set with no duplicates, attaching an
already-attached KB is a no-op (§3, §6; the backend route is absent from the
checked source tree).  Pairs are (chat_id, kb_id). -/
def attachKB (s : List (Nat × Nat)) (c k : Nat) : List (Nat × Nat) :=
  if (c, k) ∈ s then s else s ++ [(c, k)]

/-- Modelled from the spec: detaching a KB removes the membership; detaching
a non-attached KB is a no-op (§6). -/
def detachKB (s : List (Nat × Nat)) (c k : Nat) : List (Nat × Nat) :=
  s.filter (fun p => decide (p ≠ (c, k)))

/-- A message as the frontend displays it. -/
structure UIMessage where
  id : Nat
  role : String
  content : String
deriving DecidableEq

/-- Embedded from frontend/src/pages/ChatPage.jsx (handleSendMessage, lines
126-153): the optimistic append of the user's message before the API call. -/
def optimisticAppend (messages : List UIMessage) (newId : Nat) (content : String) :
    List UIMessage :=
  messages ++ [{ id := newId, role := "user", content := content }]

/-- Embedded from frontend/src/pages/ChatPage.jsx (handleSendMessage, catch
branch, lines 149-152): on API failure the handler filters the optimistic
user message back out of the list by its id. -/
def handleSendMessageFailure (messages : List UIMessage) (newId : Nat)
    (content : String) : List UIMessage :=
  (optimisticAppend messages newId content).filter (fun m => decide (m.id ≠ newId))

/-- A chat row as the frontend lists it. -/
structure ChatRow where
  chat_id : Nat
deriving DecidableEq

/-- Embedded from frontend/src/pages/ChatPage.jsx (handleDeleteChat, lines
114-124): the chat list is filtered by id, and when the deleted chat was the
selected one the selection becomes `chats[0] || null` where `chats` is the
PRE-deletion list — i.e. the old head of the list, not the head of the
filtered list. -/
def handleDeleteChat (chats : List ChatRow) (current : Option ChatRow) (cid : Nat) :
    List ChatRow × Option ChatRow :=
  let remaining := chats.filter (fun c => decide (c.chat_id ≠ cid))
  (remaining,
   if current.map (fun c => c.chat_id) = some cid then chats.head? else current)

/-- Sample retrieval configuration used by concrete witnesses. -/
def sampleCfg : RetrievalConfig :=
  { recent_k := 1, history_k := 2, history_threshold := 0, kb_k := 2,
    kb_k_total := 3, kb_threshold := 0, attachment_k := 2,
    attachment_threshold := 0, max_context_units := 100 }

/-- Sample chat history used by concrete witnesses. -/
def sampleMsgs : List ChatMessage :=
  [{ id := 1, content := "hi", embedding := [1], created_at := 10 },
   { id := 2, content := "there", embedding := [0], created_at := 20 }]

/-- C1: for every retrieve call, the candidate list handed to the
ContextBudgetAllocator follows the fixed source layout — recent messages
first (the last recent_k messages of the chat, kept in chronological order,
a suffix of the chat history), then KB chunks, then attachment chunks, then
semantic-history matches — and the recent component is included regardless of
similarity: it does not depend on the query embedding. -/
theorem retrieve_fixed_layout (cfg : RetrievalConfig) (msgs : List ChatMessage)
    (kbChunks : List (List Chunk)) (attChunks : List Chunk) (q : Embedding) :
    (retrieve cfg msgs kbChunks attChunks q).candidates =
      (retrieve cfg msgs kbChunks attChunks q).recent ++
        (retrieve cfg msgs kbChunks attChunks q).kbMatches ++
        (retrieve cfg msgs kbChunks attChunks q).attMatches ++
        (retrieve cfg msgs kbChunks attChunks q).histMatches
  ∧ (retrieve cfg msgs kbChunks attChunks q).recent =
      (msgs.drop (msgs.length - cfg.recent_k)).map msgCandidate
  ∧ msgs.drop (msgs.length - cfg.recent_k) <:+ msgs
  ∧ (cfg.recent_k ≤ msgs.length →
      (msgs.drop (msgs.length - cfg.recent_k)).length = cfg.recent_k)
  ∧ (∀ q' : Embedding,
      (retrieve cfg msgs kbChunks attChunks q').recent =
        (retrieve cfg msgs kbChunks attChunks q).recent) := by
  refine ⟨?_, rfl, List.drop_suffix _ _, ?_, fun q' => rfl⟩
  · simp [retrieve, List.append_assoc]
  · intro h
    rw [List.length_drop]
    omega

/-- Witness for retrieve_fixed_layout at a concrete chat of two messages
with recent_k = 1. -/
theorem retrieve_fixed_layout_witness :
    (sampleMsgs.drop (sampleMsgs.length - sampleCfg.recent_k)).length =
      sampleCfg.recent_k :=
  (retrieve_fixed_layout sampleCfg sampleMsgs [] [] []).2.2.2.1 (by decide)

/-- C2: for every ordered candidate list and every budget, the
ContextBudgetAllocator emits a prefix of the input list (hence the selection
is prefix-closed, every candidate is emitted whole, never truncated mid-way,
and the fixed source ordering of the input is preserved) whose total size
under the configured size function never exceeds the budget. -/
theorem allocator_budget_invariant (size : Candidate → Nat) (budget : Nat)
    (cands : List Candidate) :
    allocate size budget cands <+: cands
  ∧ totalUnits size (allocate size budget cands) ≤ budget :=
  ⟨allocGo_isPrefixOf size budget cands 0, by
    simpa using allocGo_total size budget cands 0 (Nat.zero_le budget)⟩

/-- C3: chunking 5,000 characters of plain text with chunk_size = 500 and
overlap = 50 produces exactly ceil((5000-50)/(500-50)) = 11 chunks, and
chunk i is the window of length chunk_size starting at
i*(chunk_size-overlap). -/
theorem chunking_scenarioA :
    (chunkText scenarioAText 500 50).map List.length =
      Except.ok ((5000 - 50 + (500 - 50) - 1) / (500 - 50))
  ∧ (5000 - 50 + (500 - 50) - 1) / (500 - 50) = 11
  ∧ (∀ i, i < 11 →
      (chunksAux scenarioAText 500 50 0 5001).getD i [] =
        (scenarioAText.drop (i * (500 - 50))).take 500) := by
  refine ⟨?_, by norm_num, ?_⟩
  · rw [scenarioA_chunkText]
    simp only [Except.map]
    rw [scenarioA_chunks_length]
  · intro i hi
    have h := chunksAux_getD scenarioAText 500 50 5001 0 i
      (by rw [scenarioA_chunks_length]; exact hi)
    simpa using h

/-- Witness for chunking_scenarioA: the first Scenario-A chunk is the window
of length 500 starting at offset 0. -/
theorem chunking_scenarioA_witness :
    (chunksAux scenarioAText 500 50 0 5001).getD 0 [] =
      (scenarioAText.drop (0 * (500 - 50))).take 500 :=
  chunking_scenarioA.2.2 0 (by norm_num)

/-- C4 counterexample: in the attachment status display of
AttachmentPreview.jsx, the status value rendered as the terminal success
badge is the string "completed", and the claimed status value "ready" is not
a status the component recognises at all — so the attachment status
vocabulary is processing/completed/failed, not
queued/chunking/embedding/ready. -/
theorem attachment_status_vocabulary_cex :
    attachmentStatusBadge "ready" = none
  ∧ attachmentStatusBadge "completed" = some "✓ Ready"
  ∧ attachmentStatusBadge "queued" = none
  ∧ attachmentStatusBadge "chunking" = none
  ∧ attachmentStatusBadge "embedding" = none := by
  refine ⟨?_, ?_, ?_, ?_, ?_⟩ <;> decide

/-- C4 amended: the document lifecycle (modelled from the spec, the backend
state machine being outside the checked source tree) steps
queued → chunking → embedding → ready with failed reachable only from
chunking or embedding, no transition skips a state, and exactly ready and
failed are terminal; the per-chat attachment statuses surfaced to the UI,
however, are the strings "processing", "completed" and "failed", with
"completed" (not "ready") as the terminal success value. -/
theorem processing_lifecycle_amended :
    (∀ s t, DocStep s t →
        statusRank t = statusRank s + 1 ∨
          (t = .failed ∧ (s = .chunking ∨ s = .embedding)))
  ∧ (∀ s, (∀ t, ¬ DocStep s t) ↔ (s = .ready ∨ s = .failed))
  ∧ (∀ s b, attachmentStatusBadge s = some b →
        s = "processing" ∨ s = "completed" ∨ s = "failed")
  ∧ attachmentStatusBadge "completed" = some "✓ Ready" := by
  refine ⟨?_, ?_, ?_, by decide⟩
  · intro s t h
    cases h <;> simp [statusRank]
  · intro s
    constructor
    · intro h
      cases s with
      | queued => exact absurd DocStep.start (h _)
      | chunking => exact absurd DocStep.chunked (h _)
      | embedding => exact absurd DocStep.embedded (h _)
      | ready => exact Or.inl rfl
      | failed => exact Or.inr rfl
    · rintro (rfl | rfl) t h <;> cases h
  · intro s b h
    unfold attachmentStatusBadge at h
    split_ifs at h with h1 h2 h3
    · exact Or.inl h1
    · exact Or.inr (Or.inl h2)
    · exact Or.inr (Or.inr h3)

/-- Witness for processing_lifecycle_amended: the queued-to-chunking step
advances the rank by one, ready has no outgoing step, and "completed" is in
the recognised attachment status vocabulary. -/
theorem processing_lifecycle_amended_witness :
    (statusRank .chunking = statusRank .queued + 1 ∨
      (DocStatus.chunking = .failed ∧
        (DocStatus.queued = .chunking ∨ DocStatus.queued = .embedding)))
  ∧ ¬ DocStep .ready .chunking
  ∧ ("completed" = "processing" ∨ "completed" = "completed" ∨
      "completed" = "failed") :=
  ⟨processing_lifecycle_amended.1 _ _ DocStep.start,
   (processing_lifecycle_amended.2.1 DocStatus.ready).mpr (Or.inl rfl) _,
   processing_lifecycle_amended.2.2.1 "completed" "✓ Ready" (by decide)⟩

/-- C5: uploading a document whose filename already exists in the same KB
fails with DuplicateNameError, which is surfaced as HTTP 409 and reported by
the frontend as a filename conflict, and the KB's document table is left
unchanged — no new document row is created. -/
theorem duplicate_upload_conflict (docs : List KBDocumentRow) (newId : Nat)
    (fn : String) (h : ∃ d ∈ docs, d.filename = fn) :
    (uploadDocument docs newId fn).1 = .error .duplicateName
  ∧ (uploadDocument docs newId fn).2 = docs
  ∧ uploadErrorHTTPStatus .duplicateName = 409
  ∧ uploadErrorToast (uploadErrorHTTPStatus .duplicateName) =
      "A file with this name already exists" := by
  have hany : docs.any (fun d => decide (d.filename = fn)) = true := by
    simpa [List.any_eq_true] using h
  unfold uploadDocument
  rw [if_pos hany]
  exact ⟨rfl, rfl, rfl, by decide⟩

/-- Witness for duplicate_upload_conflict at a one-document KB and a
colliding filename. -/
theorem duplicate_upload_conflict_witness :
    (uploadDocument [⟨1, "notes.txt"⟩] 2 "notes.txt").1 =
      .error .duplicateName
  ∧ (uploadDocument [⟨1, "notes.txt"⟩] 2 "notes.txt").2 =
      [⟨1, "notes.txt"⟩] :=
  ⟨(duplicate_upload_conflict [⟨1, "notes.txt"⟩] 2 "notes.txt" (by decide)).1,
   (duplicate_upload_conflict [⟨1, "notes.txt"⟩] 2 "notes.txt" (by decide)).2.1⟩

/-- Sample relational state used by the deleteKB witness: two KBs, one
document and one chunk each, both attached to chat 5. -/
def sampleStore : KBStore :=
  { kbs := [1, 2]
    docs := [⟨10, 1⟩, ⟨11, 2⟩]
    chunks := [⟨100, 10⟩, ⟨101, 11⟩]
    chatKBs := [(5, 1), (5, 2)] }

/-- C6: deleting a KB leaves zero KBDocument rows of that KB, zero KBChunk
rows whose parent document belonged to that KB, removes the KB from every
chat's attached set and from the KB table; and the frontend mirror
handleKBDeleted removes the KB from both the KB list and the attached
list. -/
theorem deleteKB_cascade (db : KBStore) (k : Nat) :
    (∀ d ∈ (deleteKB db k).docs, d.kb_id ≠ k)
  ∧ (∀ c ∈ (deleteKB db k).chunks, ∀ d ∈ db.docs,
        d.kb_id = k → c.document_id ≠ d.id)
  ∧ (∀ p ∈ (deleteKB db k).chatKBs, p.2 ≠ k)
  ∧ k ∉ (deleteKB db k).kbs
  ∧ (∀ (kbs attached : List KBView),
        (∀ v ∈ (handleKBDeleted kbs attached k).1, v.kb_id ≠ k) ∧
        (∀ v ∈ (handleKBDeleted kbs attached k).2, v.kb_id ≠ k)) := by
  refine ⟨?_, ?_, ?_, ?_, ?_⟩
  · intro d hd
    simp only [deleteKB, List.mem_filter, decide_eq_true_eq] at hd
    exact hd.2
  · intro c hc d hd hk heq
    simp only [deleteKB, List.mem_filter, decide_eq_true_eq] at hc
    exact hc.2 (List.mem_map.mpr
      ⟨d, List.mem_filter.mpr ⟨hd, by simp [hk]⟩, heq.symm⟩)
  · intro p hp
    simp only [deleteKB, List.mem_filter, decide_eq_true_eq] at hp
    exact hp.2
  · intro hmem
    simp only [deleteKB, List.mem_filter, decide_eq_true_eq] at hmem
    exact hmem.2 rfl
  · intro kbs attached
    constructor <;>
      · intro v hv
        simp only [handleKBDeleted, List.mem_filter, decide_eq_true_eq] at hv
        exact hv.2

/-- Witness for deleteKB_cascade on the sample store: the surviving document
belongs to the other KB and the surviving chunk does not reference the
deleted KB's document. -/
theorem deleteKB_cascade_witness :
    KBDocRef.kb_id ⟨11, 2⟩ ≠ 1
  ∧ KBChunkRow.document_id ⟨101, 11⟩ ≠ KBDocRef.id ⟨10, 1⟩ :=
  ⟨(deleteKB_cascade sampleStore 1).1 ⟨11, 2⟩ (by decide),
   (deleteKB_cascade sampleStore 1).2.1 ⟨101, 11⟩ (by decide) ⟨10, 1⟩
     (by decide) rfl⟩

/-- C7: the ChatSessionKB association behaves as a set — attaching an
already-attached KB is a no-op (attach is idempotent and the attached set
keeps exactly one membership), detaching a non-attached KB is a no-op, and
attach preserves freedom from duplicates. -/
theorem attach_detach_set_semantics (s : List (Nat × Nat)) (c k : Nat) :
    attachKB (attachKB s c k) c k = attachKB s c k
  ∧ (List.count (c, k) s ≤ 1 → List.count (c, k) (attachKB s c k) = 1)
  ∧ ((c, k) ∉ s → detachKB s c k = s)
  ∧ (s.Nodup → (attachKB s c k).Nodup) := by
  refine ⟨?_, ?_, ?_, ?_⟩
  · by_cases h : (c, k) ∈ s
    · simp [attachKB, h]
    · simp [attachKB, h]
  · intro hle
    by_cases h : (c, k) ∈ s
    · have hpos : 0 < List.count (c, k) s := List.count_pos_iff.mpr h
      simp only [attachKB, if_pos h]
      omega
    · have hz : List.count (c, k) s = 0 := List.count_eq_zero.mpr h
      simp [attachKB, if_neg h, List.count_append, hz]
  · intro h
    refine List.filter_eq_self.mpr ?_
    intro p hp
    simp only [decide_eq_true_eq]
    rintro rfl
    exact h hp
  · intro hnd
    by_cases h : (c, k) ∈ s
    · simpa [attachKB, h] using hnd
    · simp [attachKB, h, List.nodup_append, hnd]

/-- Witness for attach_detach_set_semantics: one attached pair stays a single
membership under re-attach, and detaching an absent pair changes nothing. -/
theorem attach_detach_set_semantics_witness :
    List.count (1, 2) (attachKB [(1, 2)] 1 2) = 1
  ∧ detachKB [(1, 2)] 1 3 = [(1, 2)]
  ∧ (attachKB [(1, 2)] 1 2).Nodup :=
  ⟨(attach_detach_set_semantics [(1, 2)] 1 2).2.1 (by decide),
   (attach_detach_set_semantics [(1, 2)] 1 3).2.2.1 (by decide),
   (attach_detach_set_semantics [(1, 2)] 1 2).2.2.2 (by decide)⟩

/-- C8: every successful send-message call returns a record {reply, metadata}
whose reply is the LLM's answer over the budget-allocated context and whose
metadata carries the per-source candidate counts — recent, older (semantic
history), KB and attachment — of the retrieve call used to assemble the
context. -/
theorem sendMessage_reply_metadata (llm : String → List Candidate → String)
    (embedQuery : String → Embedding) (cfg : RetrievalConfig)
    (msgs : List ChatMessage) (kbChunks : List (List Chunk))
    (attChunks : List Chunk) (content : String) :
    (sendMessage llm embedQuery cfg msgs kbChunks attChunks content).reply =
      llm content (allocate candSize cfg.max_context_units
        (retrieve cfg msgs kbChunks attChunks (embedQuery content)).candidates)
  ∧ (sendMessage llm embedQuery cfg msgs kbChunks attChunks content).metadata =
      { recentCount :=
          (retrieve cfg msgs kbChunks attChunks (embedQuery content)).recent.length
        olderCount :=
          (retrieve cfg msgs kbChunks attChunks (embedQuery content)).histMatches.length
        kbCount :=
          (retrieve cfg msgs kbChunks attChunks (embedQuery content)).kbMatches.length
        attachmentCount :=
          (retrieve cfg msgs kbChunks attChunks (embedQuery content)).attMatches.length } :=
  ⟨rfl, rfl⟩

/-- C9: when the send-message API call fails, handleSendMessage filters the
optimistically appended user message back out by its id, so — provided the
fresh id does not collide with an existing message id — the displayed list
after a failed send equals the list before the send. -/
theorem failed_send_restores_messages (messages : List UIMessage) (newId : Nat)
    (content : String) (h : ∀ m ∈ messages, m.id ≠ newId) :
    handleSendMessageFailure messages newId content = messages := by
  unfold handleSendMessageFailure optimisticAppend
  rw [List.filter_append]
  have h1 : messages.filter (fun m => decide (m.id ≠ newId)) = messages :=
    List.filter_eq_self.mpr (fun m hm => by simpa using h m hm)
  have h2 : List.filter (fun (m : UIMessage) => decide (m.id ≠ newId))
      [{ id := newId, role := "user", content := content }] = [] := by
    simp
  rw [h1, h2, List.append_nil]

/-- Witness for failed_send_restores_messages on a one-message chat and a
fresh optimistic id. -/
theorem failed_send_restores_messages_witness :
    handleSendMessageFailure [⟨1, "user", "hello"⟩] 2 "oops" =
      [⟨1, "user", "hello"⟩] :=
  failed_send_restores_messages [⟨1, "user", "hello"⟩] 2 "oops" (by decide)

/-- C10 counterexample: with a single chat (id 1) selected and then deleted,
handleDeleteChat sets the new selection to the stale pre-deletion head
chats[0] — the deleted chat itself — while the chat list becomes empty, so
the new selection is neither null nor a chat that still exists in the
list. -/
theorem delete_selected_chat_cex :
    (handleDeleteChat [⟨1⟩] (some ⟨1⟩) 1).1 = []
  ∧ (handleDeleteChat [⟨1⟩] (some ⟨1⟩) 1).2 = some ⟨1⟩
  ∧ ¬ ((handleDeleteChat [⟨1⟩] (some ⟨1⟩) 1).2 = none ∨
        ∃ c ∈ (handleDeleteChat [⟨1⟩] (some ⟨1⟩) 1).1,
          (handleDeleteChat [⟨1⟩] (some ⟨1⟩) 1).2 = some c) := by
  refine ⟨rfl, rfl, ?_⟩
  rintro (h | ⟨c, hc, h⟩)
  · simp [handleDeleteChat] at h
  · simp [handleDeleteChat] at hc

/-- C10 amended: after handleDeleteChat(chatId), the deleted chat is absent
from the chat list; if the deleted chat was the currently selected chat, the
new selection becomes the FIRST chat of the pre-deletion list (or null when
that list was empty) — a chat that still exists in the list whenever that
first chat is not the deleted one, but the deleted chat itself when the
deleted chat was first; when the deleted chat was not selected, the selection
is unchanged. -/
theorem handleDeleteChat_amended (chats : List ChatRow) (current : Option ChatRow)
    (cid : Nat) :
    (∀ c ∈ (handleDeleteChat chats current cid).1, c.chat_id ≠ cid)
  ∧ (current.map (fun c => c.chat_id) = some cid →
      (handleDeleteChat chats current cid).2 = chats.head?)
  ∧ (current.map (fun c => c.chat_id) ≠ some cid →
      (handleDeleteChat chats current cid).2 = current)
  ∧ (∀ h0, chats.head? = some h0 → h0.chat_id ≠ cid →
      h0 ∈ (handleDeleteChat chats current cid).1) := by
  refine ⟨?_, ?_, ?_, ?_⟩
  · intro c hc
    simp only [handleDeleteChat, List.mem_filter, decide_eq_true_eq] at hc
    exact hc.2
  · intro h
    simp [handleDeleteChat, h]
  · intro h
    simp [handleDeleteChat, h]
  · intro h0 hh hne
    simp only [handleDeleteChat, List.mem_filter, decide_eq_true_eq]
    exact ⟨List.mem_of_mem_head? hh, hne⟩

/-- Witness for handleDeleteChat_amended: deleting the selected second chat
of a two-chat list moves the selection to the surviving first chat. -/
theorem handleDeleteChat_amended_witness :
    (handleDeleteChat [⟨1⟩, ⟨2⟩] (some ⟨2⟩) 2).2 = List.head? [⟨1⟩, ⟨2⟩]
  ∧ (⟨1⟩ : ChatRow) ∈ (handleDeleteChat [⟨1⟩, ⟨2⟩] (some ⟨2⟩) 2).1 :=
  ⟨(handleDeleteChat_amended [⟨1⟩, ⟨2⟩] (some ⟨2⟩) 2).2.1 (by decide),
   (handleDeleteChat_amended [⟨1⟩, ⟨2⟩] (some ⟨2⟩) 2).2.2.2 ⟨1⟩ rfl (by decide)⟩

end NeuralFoundry
